import Mathlib

/-!
Shallow embedding of the timer application (TypeScript sources:
`state/timerStore.ts`, `tools/timerTool.ts`, `server.ts`, `types.ts`).

Modelling conventions:
* Timestamps are integers (milliseconds since the epoch).  The source stores
  them as ISO strings via `formatISO` and re-parses with `new Date(...)`;
  `formatISO`/`new Date` round-tripping is modelled as the identity on the
  integer timestamp, `addMilliseconds a ms` as `a + ms`,
  `differenceInMilliseconds a b` as `a - b`, and `Date` comparison as `≤` on
  integers.
* The `Map<string, Timer>` is modelled as a `List Timer` in insertion order
  with `Map.set` semantics (`TimerStore.setTimer`): replace in place when the
  id is present, append otherwise.
* Fallible operations (the source `throw`s `Error(message)`) return
  `Except String` carrying the exact message string.
* `Array.prototype.sort(comparator)` on ISO-string keys is modelled as
  `List.insertionSort` over the corresponding order on `Option Int`
  (`localeCompare` with the `""` sentinel for absent `startedAt`, which
  collates first).  Only the sortedness/permutation behaviour is relevant;
  no claim depends on the tie-breaking of equal keys.
* `Math.round(x)` (round half toward +∞) on a quotient `a / b` (`b > 0`) is
  modelled as `⌊(2a + b) / (2b)⌋`, and `Math.ceil` similarly; JS numbers on
  the values that appear here behave as exact arithmetic.
-/

/-- Models `TimerStatus`, from `types.ts`. -/
inductive TimerStatus where
  | scheduled
  | running
  | paused
  | completed
  | cancelled
deriving DecidableEq, Repr

/-- Models `Timer.repeat` payload, from `types.ts`. -/
structure RepeatSpec where
  intervalMs : Int
  occurrences : Option Nat := none
deriving DecidableEq, Repr

/-- Models `Timer.category` values, from `types.ts` (`brk` stands for `"break"`). -/
inductive TimerCategory where
  | focus
  | brk
  | custom
deriving DecidableEq, Repr

/-- The `Timer` record, from `types.ts`.  `repeatCfg` is the source field
`repeat` (renamed: `repeat` is a Lean keyword). -/
structure Timer where
  id : String
  label : String
  durationMs : Int
  remainingMs : Int
  status : TimerStatus
  startedAt : Option Int := none
  endsAt : Option Int := none
  repeatCfg : Option RepeatSpec := none
  category : Option TimerCategory := none
deriving DecidableEq, Repr

/-- Result record of a store/toolset operation, from `types.ts`
(`completed?` is optional there, hence `Option`). -/
structure TimerUpdateResult where
  timer : Timer
  message : String
  completed : Option (List Timer) := none
deriving DecidableEq, Repr

/-- Models `DEFAULT_MAX_CONCURRENT` from `timerStore.ts`. -/
def DEFAULT_MAX_CONCURRENT : Nat := 5

/-- The `TimerStore` state: the `Map<string, Timer>` (insertion order) and
the configured concurrency cap. -/
structure TimerStore where
  timers : List Timer
  maxConcurrent : Nat := DEFAULT_MAX_CONCURRENT
deriving DecidableEq, Repr

/-- Models `Math.round(a / b)` for integer `a`, positive integer `b`:
`floor(a/b + 1/2)`. -/
def jsRoundDiv (a b : Int) : Int := (2 * a + b).fdiv (2 * b)

/-- Models `Math.ceil(a / b)` for integer `a`, positive integer `b`. -/
def jsCeilDiv (a b : Int) : Int := -((-a).fdiv b)

namespace TimerStore

/-- Models `Map.set` on the insertion-ordered list: replace in place if the id is
present, otherwise append. -/
def setTimer (s : TimerStore) (t : Timer) : TimerStore :=
  if s.timers.any (fun u => u.id == t.id) then
    { s with timers := s.timers.map (fun u => if u.id == t.id then t else u) }
  else
    { s with timers := s.timers ++ [t] }

/-- Comparator used by `getAll`: `(a.startedAt ?? "").localeCompare(b.startedAt ?? "")`
on ISO timestamps, i.e. absent `startedAt` collates first, otherwise compare
the timestamps. -/
def startedLE (a b : Timer) : Prop :=
  match a.startedAt, b.startedAt with
  | none, _ => True
  | some _, none => False
  | some x, some y => x ≤ y

instance : DecidableRel startedLE := fun a b => by
  unfold startedLE
  exact match a.startedAt, b.startedAt with
    | none, _ => inferInstanceAs (Decidable True)
    | some _, none => inferInstanceAs (Decidable False)
    | some x, some y => inferInstanceAs (Decidable (x ≤ y))

/-- Models `getAll()`: all timers sorted by `startedAt` (empty sentinel first). -/
def getAll (s : TimerStore) : List Timer :=
  s.timers.insertionSort startedLE

/-- Predicate for `getActive`'s filter. -/
def isActive (t : Timer) : Bool :=
  t.status == .running || t.status == .paused || t.status == .scheduled

/-- Models `getActive()`. -/
def getActive (s : TimerStore) : List Timer :=
  (s.getAll).filter isActive

/-- Models `findById(id)`. -/
def findById (s : TimerStore) (id : String) : Option Timer :=
  s.timers.find? (fun t => t.id == id)

/-- Models `suggestLabel()`'s `while` loop: the lowest counter (starting at the
given one) whose `"Timer N"` label is unused.  `fuel = occupied.length`
suffices: the loop advances only past occupied labels, and at most
`occupied.length` distinct labels exist. -/
def suggestLabelAux (occupied : List String) : Nat → Nat → Nat
  | 0, counter => counter
  | fuel + 1, counter =>
    if occupied.contains ("Timer " ++ toString counter) then
      suggestLabelAux occupied fuel (counter + 1)
    else counter

/-- Models `suggestLabel()`. -/
def suggestLabel (s : TimerStore) : String :=
  let occupied := s.timers.map (fun t => t.label)
  "Timer " ++ toString (suggestLabelAux occupied occupied.length 1)

/-- Models `computeRemaining(timer, now)`. -/
def computeRemaining (t : Timer) (now : Int) : Int :=
  match t.endsAt with
  | none => t.remainingMs
  | some e => max (e - now) 0

/-- The capacity-error message thrown by `start`. -/
def capacityMessage (maxConcurrent : Nat) : String :=
  "You already have " ++ toString maxConcurrent ++
    " active timers. Cancel one before starting another."

/-- Input record of `start`. -/
structure StartInput where
  label : Option String := none
  durationMs : Int
  category : Option TimerCategory := none
  repeatCfg : Option RepeatSpec := none

/-- Models `start(input)`.  `now` models `new Date()` and `id` the fresh `uuid()`. -/
def start (s : TimerStore) (input : StartInput) (now : Int) (id : String) :
    Except String (TimerStore × TimerUpdateResult) :=
  if s.maxConcurrent ≤ s.getActive.length then
    .error (capacityMessage s.maxConcurrent)
  else
    let endsAt := now + input.durationMs
    let timer : Timer :=
      { id := id
        label := input.label.getD s.suggestLabel
        durationMs := input.durationMs
        remainingMs := input.durationMs
        status := .running
        startedAt := some now
        endsAt := some endsAt
        repeatCfg := input.repeatCfg
        category := some (input.category.getD .custom) }
    .ok (s.setTimer timer,
      { timer := timer
        message := "Started " ++ timer.label ++ " for " ++
          toString (jsRoundDiv input.durationMs 60000) ++ " minutes." })

/-- Models `pause(id)`. -/
def pause (s : TimerStore) (id : String) (now : Int) :
    Except String (TimerStore × TimerUpdateResult) :=
  match s.findById id with
  | none => .error "Timer not found."
  | some timer =>
    if timer.status = .running then
      let remainingMs := computeRemaining timer now
      let updated : Timer :=
        { timer with status := .paused, remainingMs := remainingMs, endsAt := none }
      .ok (s.setTimer updated,
        { timer := updated
          message := timer.label ++ " paused with " ++
            toString (jsCeilDiv remainingMs 60000) ++ " minutes left." })
    else
      .error "Only running timers can be paused."

/-- Models `resume(id)`. -/
def resume (s : TimerStore) (id : String) (now : Int) :
    Except String (TimerStore × TimerUpdateResult) :=
  match s.findById id with
  | none => .error "Timer not found."
  | some timer =>
    if timer.status = .paused then
      let endsAt := now + timer.remainingMs
      let updated : Timer :=
        { timer with
            status := .running
            startedAt := some (timer.startedAt.getD now)
            endsAt := some endsAt }
      .ok (s.setTimer updated,
        { timer := updated
          message := timer.label ++ " resumed. " ++
            toString (jsCeilDiv timer.remainingMs 60000) ++ " minutes remaining." })
    else
      .error "Only paused timers can be resumed."

/-- Models `cancel(id)`. -/
def cancel (s : TimerStore) (id : String) :
    Except String (TimerStore × TimerUpdateResult) :=
  match s.findById id with
  | none => .error "Timer not found."
  | some timer =>
    let updated : Timer :=
      { timer with status := .cancelled, remainingMs := 0, endsAt := none }
    .ok (s.setTimer updated,
      { timer := updated, message := timer.label ++ " cancelled." })

/-- The loop condition of `completeExpiringTimers`: a running timer whose
`endsAt` is present and `≤ now`. -/
def isExpiredRunning (t : Timer) (now : Int) : Bool :=
  t.status == .running &&
    match t.endsAt with
    | none => false
    | some e => decide (e ≤ now)

/-- The record written for an expired timer by `completeExpiringTimers`. -/
def finishTimer (t : Timer) (now : Int) : Timer :=
  { t with status := .completed, remainingMs := 0, endsAt := some now }

/-- The `for (const timer of this.timers.values())` loop of
`completeExpiringTimers`: returns the updated timer list and the `completed`
accumulator in iteration order. -/
def completeAux (now : Int) : List Timer → List Timer × List Timer
  | [] => ([], [])
  | t :: ts =>
    let rest := completeAux now ts
    if isExpiredRunning t now then
      (finishTimer t now :: rest.1, finishTimer t now :: rest.2)
    else
      (t :: rest.1, rest.2)

/-- Models `completeExpiringTimers(now)`: the updated store and the list of timers
completed by this scan. -/
def completeExpiringTimers (s : TimerStore) (now : Int) :
    TimerStore × List Timer :=
  let r := completeAux now s.timers
  ({ s with timers := r.1 }, r.2)

/-- Models `describeDelta(extraMs)`. -/
def describeDelta (extraMs : Int) : String :=
  let abs := extraMs.natAbs
  let minutes := abs / 60000
  let seconds := (abs % 60000) / 1000
  if minutes > 0 && seconds > 0 then
    toString minutes ++ "m " ++ toString seconds ++ "s"
  else if minutes > 0 then
    toString minutes ++ " minute" ++ (if minutes == 1 then "" else "s")
  else
    toString seconds ++ " second" ++ (if seconds == 1 then "" else "s")

/-- Models `extend(id, extraMs)`. -/
def extend (s : TimerStore) (id : String) (extraMs : Int) (now : Int) :
    Except String (TimerStore × TimerUpdateResult) :=
  match s.findById id with
  | none => .error "Timer not found."
  | some timer =>
    if timer.status = .running ∨ timer.status = .paused then
      let remainingMs :=
        if timer.status = .running then computeRemaining timer now
        else timer.remainingMs
      let newRemaining := max (remainingMs + extraMs) 0
      let deltaLabel := describeDelta extraMs
      let updated : Timer :=
        if newRemaining = 0 then
          { timer with status := .completed, remainingMs := 0, endsAt := some now }
        else if timer.status = .running then
          { timer with remainingMs := newRemaining, endsAt := some (now + newRemaining) }
        else
          { timer with remainingMs := newRemaining }
      let message :=
        if newRemaining = 0 then
          timer.label ++ " finished after the adjustment."
        else if 0 ≤ extraMs then
          timer.label ++ " extended by " ++ deltaLabel ++ "."
        else
          timer.label ++ " shortened by " ++ deltaLabel ++ "."
      .ok (s.setTimer updated, { timer := updated, message := message })
    else
      .error "Only active timers can be extended."

end TimerStore

/-!
Tool facade (`tools/timerTool.ts`).  Each `new Date()` read in the source is
a separate parameter here (`tickNow` for the reconciliation scan, `decNow`
for each decoration, `opNow` for the store operation's own clock read).
-/

namespace TimerToolset

/-- Models `decorateTimer(timer)`: recompute `remainingMs` live for a running timer
with an `endsAt`; other timers are returned unchanged. -/
def decorateTimer (t : Timer) (now : Int) : Timer :=
  match t.status, t.endsAt with
  | .running, some e => { t with remainingMs := max (e - now) 0 }
  | _, _ => t

/-- Models `getSnapshot()`: every timer of `getAll`, decorated. -/
def getSnapshot (s : TimerStore) (now : Int) : List Timer :=
  s.getAll.map (fun t => decorateTimer t now)

/-- Models `handleTick(now)`: run the reconciliation scan and decorate the newly
completed timers.  Returns the updated store and the decorated list. -/
def handleTick (s : TimerStore) (now decNow : Int) : TimerStore × List Timer :=
  let r := s.completeExpiringTimers now
  (r.1, r.2.map (fun t => decorateTimer t decNow))

/-- Models `mergeCompleted(completed, candidate)`. -/
def mergeCompleted (completed : List Timer) (candidate : Timer) : List Timer :=
  if candidate.status = .completed then
    if completed.any (fun t => t.id == candidate.id) then completed
    else completed ++ [candidate]
  else completed

/-- Models `pauseTimer(id)`: tick, pause, decorate, report the tick's completions.
(The source binds the tick's result once; being pure, the two uses are
written as two occurrences of the same call here.) -/
def pauseTimer (s : TimerStore) (id : String) (tickNow tickDecNow opNow decNow : Int) :
    Except String (TimerStore × TimerUpdateResult) :=
  match (handleTick s tickNow tickDecNow).1.pause id opNow with
  | .error e => .error e
  | .ok (s2, r) =>
    .ok (s2,
      { r with
          timer := decorateTimer r.timer decNow
          completed := some (handleTick s tickNow tickDecNow).2 })

/-- Models `extendTimer(...)` after schema validation: tick, extend, decorate, merge
the primary timer into the completed list when it finished. -/
def extendTimer (s : TimerStore) (id : String) (extraMs : Int)
    (tickNow tickDecNow opNow decNow : Int) :
    Except String (TimerStore × TimerUpdateResult) :=
  match (handleTick s tickNow tickDecNow).1.extend id extraMs opNow with
  | .error e => .error e
  | .ok (s2, r) =>
    .ok (s2,
      { r with
          timer := decorateTimer r.timer decNow
          completed := some (mergeCompleted (handleTick s tickNow tickDecNow).2
            (decorateTimer r.timer decNow)) })

end TimerToolset

/-!
Persistence bookkeeping of `TimerStore` (`emitChange` / `waitForPersistence`).
`pendingPersist` is a JS promise; its observable content once settled is
"fulfilled" or "rejected with error e", modelled as `Option String`.
`emitChangeSettle` collapses `emitChange` (which nulls `lastPersistError` and
chains the new save with a `catch` that records the failure) together with
that save settling with the given outcome.
-/

/-- Persistence-related fields of `TimerStore`. -/
structure PersistState where
  /-- Settled outcome of `pendingPersist`: `none` = fulfilled,
  `some e` = rejected with `e`. -/
  pendingFail : Option String
  /-- `lastPersistError`. -/
  lastPersistError : Option String
deriving DecidableEq, Repr

/-- Fresh store: `pendingPersist = Promise.resolve()`, no stored error. -/
def PersistState.init : PersistState := ⟨none, none⟩

/-- Models `emitChange()` followed by the dispatched save settling with `outcome`:
`lastPersistError` is nulled by `emitChange` and re-set by the `catch`
handler exactly when the save fails; `pendingPersist` becomes the settled
promise. -/
def PersistState.emitChangeSettle (_p : PersistState) (outcome : Option String) :
    PersistState :=
  { pendingFail := outcome, lastPersistError := outcome }

/-- Models `waitForPersistence()`: await `pendingPersist` (on rejection, back-fill
`lastPersistError` if empty), then throw and clear any stored error.
Returns the new state and the thrown error, if any. -/
def PersistState.waitForPersistence (p : PersistState) :
    PersistState × Option String :=
  let stored :=
    match p.pendingFail, p.lastPersistError with
    | some e, none => some e
    | _, l => l
  ({ p with lastPersistError := none }, stored)

/-!
Reachability of store states through the public operations, starting from an
empty store.  Start durations are restricted to be nonnegative, which the
tool facade guarantees (its duration schema admits only minutes ≥ 0 and
seconds in 0..59 with a positive total).
-/

/-- Store states reachable from an empty store via the public operations. -/
inductive ReachableStore : TimerStore → Prop where
  | init (mc : Nat) : ReachableStore { timers := [], maxConcurrent := mc }
  | start {s s' : TimerStore} {input : TimerStore.StartInput} {now : Int}
      {id : String} {r : TimerUpdateResult} :
      ReachableStore s → 0 ≤ input.durationMs →
      s.start input now id = .ok (s', r) → ReachableStore s'
  | pause {s s' : TimerStore} {id : String} {now : Int} {r : TimerUpdateResult} :
      ReachableStore s → s.pause id now = .ok (s', r) → ReachableStore s'
  | resume {s s' : TimerStore} {id : String} {now : Int} {r : TimerUpdateResult} :
      ReachableStore s → s.resume id now = .ok (s', r) → ReachableStore s'
  | cancel {s s' : TimerStore} {id : String} {r : TimerUpdateResult} :
      ReachableStore s → s.cancel id = .ok (s', r) → ReachableStore s'
  | extend {s s' : TimerStore} {id : String} {extraMs now : Int}
      {r : TimerUpdateResult} :
      ReachableStore s → s.extend id extraMs now = .ok (s', r) → ReachableStore s'
  | tick {s : TimerStore} {now : Int} :
      ReachableStore s → ReachableStore (s.completeExpiringTimers now).1

/-!
`parseDurationSeconds` (`server.ts`).  The regexes are embedded as
character-level matchers:
* `/^(\d{1,2}):([0-5]?\d)$/` as `matchMmSs` (the anchored shapes are
  enumerable: 1-2 digit minutes, 1 digit or `[0-5]`+digit seconds);
* the global unit scan
  `/(\d+(?:\.\d+)?)\s*(hours?|hrs?|hr|h|minutes?|mins?|min|m|seconds?|secs?|sec|s)\b/g`
  as `scanUnits`, which tries each start index left to right and, on a
  match, resumes after it — exactly the `exec` loop.  At a given index the
  greedy submatches never need backtracking (shortening `\d+`, the optional
  fraction, or `\s*` leaves the unit alternation facing a digit, a dot or a
  space, which no alternative can start with), and the ordered alternation
  with the trailing `\b` is `tryUnits` over the expanded alternative list.
* JS `Number(...)` is modelled on decimal literals (optional sign, digits
  with optional fraction); other numeric forms (exponents, hex, infinity)
  are not produced by the claim's input classes and are treated as NaN.
  Arithmetic is exact (`ℚ`), matching JS floats on the values exercised.
* The leftover check `/\d/.test(normalized.replace(cleanupPattern, " ")...)`
  reduces to: some character outside every unit match is a digit (the
  replacements of unit matches, `and` and commas by spaces neither create
  nor destroy digits, and neither does the final trim); `scanUnits` returns
  that Bool alongside the matches.
-/

/-- JS `String.prototype.trim()` on the character list (whitespace from
both ends; `Char.isWhitespace` models the JS whitespace class on the
inputs at hand). -/
def jsTrim (l : List Char) : List Char :=
  ((l.dropWhile Char.isWhitespace).reverse.dropWhile Char.isWhitespace).reverse

/-- Models `toLowerCase()` on the character list. -/
def jsToLower (l : List Char) : List Char := l.map Char.toLower

/-- Models `input.trim().toLowerCase()` as a character list. -/
def normalizeInput (input : String) : List Char := jsToLower (jsTrim input.toList)

/-- Digit-string value: `foldl (10*acc + digit) 0`. -/
def digitsVal (l : List Char) : Nat :=
  l.foldl (fun a c => 10 * a + (c.toNat - '0'.toNat)) 0

/-- JS `\w` (word character): `[A-Za-z0-9_]`. -/
def isWordChar (c : Char) : Bool :=
  c.isAlpha || c.isDigit || c == '_'

/-- JS `\s` on the inputs at hand (ASCII whitespace). -/
def isJsSpace (c : Char) : Bool := c.isWhitespace

/-- Models `\b` at the boundary between a just-matched word character and `rest`. -/
def boundaryAfter (rest : List Char) : Bool :=
  match rest with
  | [] => true
  | c :: _ => !isWordChar c

/-- The unit alternation `hours?|hrs?|hr|h|minutes?|mins?|min|m|seconds?|secs?|sec|s`
expanded in the engine's preference order (`xs?` tries `xs` before `x`). -/
def unitAlternatives : List String :=
  ["hours", "hour", "hrs", "hr", "hr", "h",
   "minutes", "minute", "mins", "min", "min", "m",
   "seconds", "second", "secs", "sec", "sec", "s"]

/-- Try the unit alternatives in order at the head of `l`; each must be a
literal prefix followed by a word boundary. -/
def tryUnits : List String → List Char → Option (String × List Char)
  | [], _ => none
  | u :: us, l =>
    if u.toList.isPrefixOf l && boundaryAfter (l.drop u.length) then
      some (u, l.drop u.length)
    else tryUnits us l

/-- One matched unit phrase: `\d+` value, fraction digits value and count,
and the matched unit word. -/
structure UnitMatch where
  num : Nat
  frac : Nat
  fracLen : Nat
  unit : String
deriving DecidableEq, Repr

/-- Models `\d+(?:\.\d+)?` at the head of `l`: integer part, fraction value,
fraction length, rest.  When a `.` is not followed by a digit the optional
group matches empty (the dot stays in the rest). -/
def matchNumAt (l : List Char) : Option (Nat × Nat × Nat × List Char) :=
  if (l.span Char.isDigit).1.isEmpty then none
  else
    match (l.span Char.isDigit).2 with
    | '.' :: r2 =>
      if (r2.span Char.isDigit).1.isEmpty then
        some (digitsVal (l.span Char.isDigit).1, 0, 0, (l.span Char.isDigit).2)
      else
        some (digitsVal (l.span Char.isDigit).1, digitsVal (r2.span Char.isDigit).1,
          (r2.span Char.isDigit).1.length, (r2.span Char.isDigit).2)
    | _ => some (digitsVal (l.span Char.isDigit).1, 0, 0, (l.span Char.isDigit).2)

/-- The full unit-phrase pattern at the head of `l`:
number, `\s*`, unit alternation, `\b`. -/
def matchUnitPhraseAt (l : List Char) : Option (UnitMatch × List Char) :=
  match matchNumAt l with
  | none => none
  | some (n, f, k, r1) =>
    match tryUnits unitAlternatives (r1.dropWhile isJsSpace) with
    | none => none
    | some (u, r3) => some (⟨n, f, k, u⟩, r3)

/-- The `exec` loop: all (non-overlapping, leftmost) unit-phrase matches,
plus whether any unmatched character is a digit.  Every step consumes at
least one character, so `fuel = l.length` never runs out. -/
def scanUnitsF : Nat → List Char → List UnitMatch × Bool
  | _, [] => ([], false)
  | 0, _ :: _ => ([], false)
  | fuel + 1, c :: cs =>
    match matchUnitPhraseAt (c :: cs) with
    | some (m, rest) =>
      let r := scanUnitsF fuel rest
      (m :: r.1, r.2)
    | none =>
      let r := scanUnitsF fuel cs
      (r.1, r.2 || c.isDigit)

/-- All unit-phrase matches of `l` and the leftover-digit flag. -/
def scanUnits (l : List Char) : List UnitMatch × Bool :=
  scanUnitsF l.length l

/-- The `unitMultipliers` record. -/
def unitMultiplierTable : List (String × Nat) :=
  [("h", 3600), ("hr", 3600), ("hrs", 3600), ("hour", 3600), ("hours", 3600),
   ("m", 60), ("min", 60), ("mins", 60), ("minute", 60), ("minutes", 60),
   ("s", 1), ("sec", 1), ("secs", 1), ("second", 1), ("seconds", 1)]

/-- Models `match[2].replace(/s$/, "")`: drop one trailing `s`. -/
def stripTrailingS (u : String) : String :=
  if u.toList.getLast? = some 's' then String.mk u.toList.dropLast else u

/-- Models `unitMultipliers[unitKey] ?? unitMultipliers[match[2]]`, with absent
entries as 0 (the source then `continue`s on `!multiplier`). -/
def multiplierFor (u : String) : Nat :=
  match unitMultiplierTable.lookup (stripTrailingS u) with
  | some k => k
  | none => (unitMultiplierTable.lookup u).getD 0

/-- Models `Math.round(value * multiplier)` for `value = num + frac / 10^fracLen`:
round half up, computed exactly. -/
def roundedContribution (m : UnitMatch) (mult : Nat) : Nat :=
  (2 * (m.num * 10 ^ m.fracLen + m.frac) * mult + 10 ^ m.fracLen) /
    (2 * 10 ^ m.fracLen)

/-- The accumulation loop over the unit matches (`totalFromUnits`). -/
def totalFromUnits (ms : List UnitMatch) : Nat :=
  ms.foldl
    (fun acc m =>
      let mult := multiplierFor m.unit
      if mult = 0 then acc else acc + roundedContribution m mult)
    0

/-- Models `/^(\d{1,2}):([0-5]?\d)$/`: minutes and seconds on success. -/
def matchMmSs (l : List Char) : Option (Nat × Nat) :=
  match l with
  | [a, b, ':', c, d] =>
    if a.isDigit && b.isDigit && ('0' ≤ c && c ≤ '5') && d.isDigit then
      some (digitsVal [a, b], digitsVal [c, d])
    else none
  | [a, b, ':', c] =>
    if a.isDigit && b.isDigit && c.isDigit then
      some (digitsVal [a, b], digitsVal [c])
    else none
  | [a, ':', c, d] =>
    if a.isDigit && ('0' ≤ c && c ≤ '5') && d.isDigit then
      some (digitsVal [a], digitsVal [c, d])
    else none
  | [a, ':', c] =>
    if a.isDigit && c.isDigit then some (digitsVal [a], digitsVal [c])
    else none
  | _ => none

/-- The unsigned part of a JS decimal literal: `digits`, `digits.digits*`
or `.digits+`; anything else is NaN (`none`). -/
def jsNumberCore (l : List Char) : Option ℚ :=
  match (l.span Char.isDigit).2 with
  | [] =>
    if (l.span Char.isDigit).1.isEmpty then none
    else some (digitsVal (l.span Char.isDigit).1 : ℚ)
  | '.' :: r2 =>
    if (r2.span Char.isDigit).2.isEmpty then
      if (l.span Char.isDigit).1.isEmpty && (r2.span Char.isDigit).1.isEmpty then none
      else
        some ((digitsVal (l.span Char.isDigit).1 : ℚ) +
          (digitsVal (r2.span Char.isDigit).1 : ℚ) / (10 : ℚ) ^ (r2.span Char.isDigit).1.length)
    else none
  | _ => none

/-- JS `Number(...)` on decimal literals with an optional sign.  (The other
numeric forms JS accepts — exponents, hex, infinity — are not produced by
the claim's input classes and are treated as NaN; the empty string is
unreachable, the parser rejects it earlier.) -/
def jsNumber (l : List Char) : Option ℚ :=
  match l with
  | [] => jsNumberCore []
  | c :: rest =>
    if c = '-' then (jsNumberCore rest).map (fun q => -q)
    else if c = '+' then jsNumberCore rest
    else jsNumberCore (c :: rest)

/-- Models `Math.round` on a nonnegative rational: `⌊q + 1/2⌋`. -/
def jsRoundQ (q : ℚ) : Nat := (⌊q + 1 / 2⌋).toNat

/-- The parse-failure message. -/
def couldNotParse (input : String) : String :=
  "Could not parse duration \"" ++ input ++ "\"."

/-- Models `parseDurationSeconds(input)` (`server.ts`), returning whole seconds.
The `Number.isFinite(value)` guard inside the unit loop never fires in the
exact-arithmetic model and is omitted. -/
def parseDurationSeconds (input : String) : Except String Nat :=
  if normalizeInput input = [] then .error "Duration must not be empty."
  else
    match matchMmSs (normalizeInput input) with
    | some p =>
      if p.1 * 60 + p.2 = 0 then .error "Duration must be greater than zero seconds."
      else .ok (p.1 * 60 + p.2)
    | none =>
      if (scanUnits (normalizeInput input)).1.isEmpty then
        match jsNumber (normalizeInput input) with
        | some q => if 0 < q then .ok (jsRoundQ q) else .error (couldNotParse input)
        | none => .error (couldNotParse input)
      else
        if (scanUnits (normalizeInput input)).2 then .error (couldNotParse input)
        else
          if totalFromUnits (scanUnits (normalizeInput input)).1 = 0 then
            .error "Duration must be greater than zero seconds."
          else .ok (totalFromUnits (scanUnits (normalizeInput input)).1)

/-!
Per-timer invariants maintained by the public operations, by induction on
`ReachableStore`.
-/

/-- Models `endsAt` presence as a function of status: present exactly for
`running` and `completed` timers. -/
def EndsAtInv (t : Timer) : Prop :=
  t.endsAt.isSome = true ↔ (t.status = .running ∨ t.status = .completed)

/-- Remaining time: never negative, and zero in the terminal states. -/
def RemInv (t : Timer) : Prop :=
  0 ≤ t.remainingMs ∧
    ((t.status = .completed ∨ t.status = .cancelled) → t.remainingMs = 0)

/-!
Concrete sample stores and timers used by witnesses and counterexamples.
-/

/-- Decidable equality for `Except`, needed to `decide` concrete run results. -/
instance {ε α : Type} [DecidableEq ε] [DecidableEq α] : DecidableEq (Except ε α) := fun a b =>
  match a, b with
  | .ok x, .ok y =>
    if h : x = y then .isTrue (by rw [h]) else .isFalse (by intro hc; cases hc; exact h rfl)
  | .error x, .error y =>
    if h : x = y then .isTrue (by rw [h]) else .isFalse (by intro hc; cases hc; exact h rfl)
  | .ok _, .error _ => .isFalse (by intro hc; cases hc)
  | .error _, .ok _ => .isFalse (by intro hc; cases hc)

def emptyStore5 : TimerStore := { timers := [], maxConcurrent := 5 }

def sampleInput : TimerStore.StartInput := { durationMs := 1000 }

/-- The timer created by `start` on the empty store at time 0 with id `"a"`. -/
def sTimerA : Timer :=
  { id := "a", label := "Timer 1", durationMs := 1000, remainingMs := 1000,
    status := .running, startedAt := some 0, endsAt := some 1000,
    category := some .custom }

def sResultA : TimerUpdateResult :=
  { timer := sTimerA, message := "Started Timer 1 for 0 minutes." }

def sStoreA : TimerStore := { timers := [sTimerA], maxConcurrent := 5 }

/-- Models `sTimerA` paused exactly at its expiry instant. -/
def sPausedA : Timer := { sTimerA with status := .paused, remainingMs := 0, endsAt := none }

def sPausedAResult : TimerUpdateResult :=
  { timer := sPausedA, message := "Timer 1 paused with 0 minutes left." }

def sStoreAPaused : TimerStore := { timers := [sPausedA], maxConcurrent := 5 }

/-- Models `sTimerA` extended by one minute at time 0. -/
def sExtTimerA : Timer := { sTimerA with remainingMs := 61000, endsAt := some 61000 }

def sExtResultA : TimerUpdateResult :=
  { timer := sExtTimerA, message := "Timer 1 extended by 1 minute." }

def sStoreAExt : TimerStore := { timers := [sExtTimerA], maxConcurrent := 5 }

/-- Models `sTimerA` after the expiry scan at time 1000. -/
def sFinishedA : Timer :=
  { sTimerA with status := .completed, remainingMs := 0, endsAt := some 1000 }

/-- A second, longer running timer. -/
def sTimerB : Timer :=
  { id := "b", label := "B", durationMs := 5000, remainingMs := 5000,
    status := .running, startedAt := some 0, endsAt := some 5000 }

def storeAB : TimerStore := { timers := [sTimerA, sTimerB], maxConcurrent := 5 }

def sPausedB : Timer := { sTimerB with status := .paused, remainingMs := 4000, endsAt := none }

def sStoreABPaused : TimerStore :=
  { timers := [sFinishedA, sPausedB], maxConcurrent := 5 }

def sPausedBResult : TimerUpdateResult :=
  { timer := sPausedB, message := "B paused with 1 minutes left.",
    completed := some [sFinishedA] }

/-- A paused filler timer used for capacity scenarios. -/
def pTimer (n : String) : Timer :=
  { id := n, label := n, durationMs := 1000, remainingMs := 500,
    status := .paused, startedAt := some 0 }

def store4 : TimerStore :=
  { timers := [pTimer "p1", pTimer "p2", pTimer "p3", pTimer "p4"],
    maxConcurrent := 5 }

def store5 : TimerStore :=
  { timers := [pTimer "p1", pTimer "p2", pTimer "p3", pTimer "p4", pTimer "p5"],
    maxConcurrent := 5 }

/-- The record built by a successful `start` (the body of `timerStore.ts`'s
`start`). -/
def startRecord (s : TimerStore) (input : TimerStore.StartInput) (now : Int)
    (id : String) : Timer :=
  { id := id, label := input.label.getD s.suggestLabel,
    durationMs := input.durationMs, remainingMs := input.durationMs,
    status := .running, startedAt := some now,
    endsAt := some (now + input.durationMs), repeatCfg := input.repeatCfg,
    category := some (input.category.getD .custom) }

/-- A mutation together with its persistence tail, the shape every public
mutation follows: the in-memory update happens first and `emitChange`
dispatches the save, whose settled outcome is `outcome` (`pause` shown as
the representative mutation). -/
def pauseWithPersist (s : TimerStore) (p : PersistState) (id : String)
    (now : Int) (outcome : Option String) :
    Except String ((TimerStore × PersistState) × TimerUpdateResult) :=
  match s.pause id now with
  | .error e => .error e
  | .ok (s', r) => .ok ((s', p.emitChangeSettle outcome), r)

/-!
Helper lemmas about the store operations.
-/

namespace TimerStore

lemma mem_setTimer {s : TimerStore} {u t : Timer}
    (h : t ∈ (s.setTimer u).timers) : t = u ∨ t ∈ s.timers := by
  unfold setTimer at h
  split at h
  · rcases List.mem_map.mp h with ⟨v, hv, he⟩
    by_cases hid : (v.id == u.id) = true
    · rw [if_pos hid] at he
      exact Or.inl he.symm
    · rw [if_neg hid] at he
      exact Or.inr (he ▸ hv)
  · rcases List.mem_append.mp h with hv | hv
    · exact Or.inr hv
    · exact Or.inl (List.mem_singleton.mp hv)

lemma maxConcurrent_setTimer (s : TimerStore) (u : Timer) :
    (s.setTimer u).maxConcurrent = s.maxConcurrent := by
  unfold setTimer
  split <;> rfl

lemma id_of_findById {s : TimerStore} {id : String} {t : Timer}
    (h : s.findById id = some t) : t.id = id := by
  have := List.find?_some h
  simpa using this

lemma mem_of_findById {s : TimerStore} {id : String} {t : Timer}
    (h : s.findById id = some t) : t ∈ s.timers :=
  List.mem_of_find?_eq_some h

lemma find?_map_replace (u : Timer) :
    ∀ l : List Timer, l.any (fun t => t.id == u.id) = true →
      (l.map (fun t => if t.id == u.id then u else t)).find?
        (fun t => t.id == u.id) = some u := by
  intro l
  induction l with
  | nil => intro h; simp at h
  | cons t0 l ih =>
    intro h
    by_cases h0 : (t0.id == u.id) = true
    · rw [List.map_cons, if_pos h0, List.find?_cons]
      have hu : (u.id == u.id) = true := by simp
      rw [hu]
    · rw [List.map_cons, if_neg h0, List.find?_cons]
      rw [Bool.not_eq_true] at h0
      rw [h0]
      rw [List.any_cons, h0, Bool.false_or] at h
      exact ih h

lemma findById_setTimer (s : TimerStore) (u : Timer) :
    (s.setTimer u).findById u.id = some u := by
  unfold setTimer findById
  split
  · next hany => exact find?_map_replace u s.timers hany
  · next hany =>
    rw [List.find?_append]
    have hnone : s.timers.find? (fun t => t.id == u.id) = none := by
      rw [List.find?_eq_none]
      intro x hx hpx
      exact hany (List.any_eq_true.mpr ⟨x, hx, hpx⟩)
    have hu : (u.id == u.id) = true := by simp
    simp [hnone, hu]

lemma completeAux_fst (now : Int) (ts : List Timer) :
    (completeAux now ts).1 =
      ts.map (fun t => if isExpiredRunning t now = true then finishTimer t now else t) := by
  induction ts with
  | nil => rfl
  | cons t ts ih =>
    simp only [completeAux, List.map_cons]
    split <;> simp [ih]

lemma completeAux_snd (now : Int) (ts : List Timer) :
    (completeAux now ts).2 =
      (ts.filter (fun t => isExpiredRunning t now)).map (fun t => finishTimer t now) := by
  induction ts with
  | nil => rfl
  | cons t ts ih =>
    simp only [completeAux, List.filter_cons]
    split <;> simp_all

lemma completeAux_of_none (now : Int) (ts : List Timer)
    (h : ∀ t ∈ ts, isExpiredRunning t now = false) :
    completeAux now ts = (ts, []) := by
  induction ts with
  | nil => rfl
  | cons t ts ih =>
    have ht := h t (List.mem_cons_self t ts)
    have hrest := ih (fun u hu => h u (List.mem_cons_of_mem t hu))
    unfold completeAux
    rw [hrest]
    simp [ht]

lemma not_expired_of_mem_completeAux {now : Int} {ts : List Timer} :
    ∀ t ∈ (completeAux now ts).1, isExpiredRunning t now = false := by
  intro t ht
  rw [completeAux_fst] at ht
  rcases List.mem_map.mp ht with ⟨v, _, he⟩
  by_cases hv : isExpiredRunning v now = true
  · rw [if_pos hv] at he
    subst he
    simp [isExpiredRunning, finishTimer]
  · rw [if_neg hv] at he
    subst he
    simpa using hv

lemma start_ok {s s' : TimerStore} {input : StartInput} {now : Int}
    {id : String} {r : TimerUpdateResult}
    (h : s.start input now id = .ok (s', r)) :
    s' = s.setTimer r.timer ∧ r.timer.status = .running ∧
      r.timer.remainingMs = input.durationMs ∧
      r.timer.durationMs = input.durationMs ∧
      r.timer.endsAt = some (now + input.durationMs) ∧
      r.timer.startedAt = some now ∧ r.timer.id = id := by
  unfold start at h
  split at h
  · simp at h
  · simp only [Except.ok.injEq, Prod.mk.injEq] at h
    obtain ⟨hs, hr⟩ := h
    subst hr
    exact ⟨hs.symm, rfl, rfl, rfl, rfl, rfl, rfl⟩

lemma pause_ok {s s' : TimerStore} {id : String} {now : Int}
    {r : TimerUpdateResult}
    (h : s.pause id now = .ok (s', r)) :
    ∃ t, s.findById id = some t ∧ t.status = .running ∧
      s' = s.setTimer r.timer ∧
      r.timer = { t with
        status := .paused, remainingMs := computeRemaining t now, endsAt := none } := by
  unfold pause at h
  split at h
  · simp at h
  · rename_i t hf
    split at h
    · rename_i hst
      simp only [Except.ok.injEq, Prod.mk.injEq] at h
      obtain ⟨hs, hr⟩ := h
      subst hr
      exact ⟨t, hf, hst, hs.symm, rfl⟩
    · simp at h

lemma resume_ok {s s' : TimerStore} {id : String} {now : Int}
    {r : TimerUpdateResult}
    (h : s.resume id now = .ok (s', r)) :
    ∃ t, s.findById id = some t ∧ t.status = .paused ∧
      s' = s.setTimer r.timer ∧
      r.timer = { t with
        status := .running, startedAt := some (t.startedAt.getD now),
        endsAt := some (now + t.remainingMs) } := by
  unfold resume at h
  split at h
  · simp at h
  · rename_i t hf
    split at h
    · rename_i hst
      simp only [Except.ok.injEq, Prod.mk.injEq] at h
      obtain ⟨hs, hr⟩ := h
      subst hr
      exact ⟨t, hf, hst, hs.symm, rfl⟩
    · simp at h

lemma cancel_ok {s s' : TimerStore} {id : String} {r : TimerUpdateResult}
    (h : s.cancel id = .ok (s', r)) :
    ∃ t, s.findById id = some t ∧
      s' = s.setTimer r.timer ∧
      r.timer = { t with status := .cancelled, remainingMs := 0, endsAt := none } := by
  unfold cancel at h
  split at h
  · simp at h
  · rename_i t hf
    simp only [Except.ok.injEq, Prod.mk.injEq] at h
    obtain ⟨hs, hr⟩ := h
    subst hr
    exact ⟨t, hf, hs.symm, rfl⟩

lemma extend_ok {s s' : TimerStore} {id : String} {extraMs now : Int}
    {r : TimerUpdateResult}
    (h : s.extend id extraMs now = .ok (s', r)) :
    ∃ t, s.findById id = some t ∧ (t.status = .running ∨ t.status = .paused) ∧
      s' = s.setTimer r.timer ∧
      ((max ((if t.status = .running then computeRemaining t now
              else t.remainingMs) + extraMs) 0 = 0 ∧
        r.timer = { t with status := .completed, remainingMs := 0, endsAt := some now }) ∨
       (¬ max ((if t.status = .running then computeRemaining t now
                else t.remainingMs) + extraMs) 0 = 0 ∧ t.status = .running ∧
        r.timer = { t with
          remainingMs := max (computeRemaining t now + extraMs) 0,
          endsAt := some (now + max (computeRemaining t now + extraMs) 0) }) ∨
       (¬ max ((if t.status = .running then computeRemaining t now
                else t.remainingMs) + extraMs) 0 = 0 ∧ t.status = .paused ∧
        r.timer = { t with remainingMs := max (t.remainingMs + extraMs) 0 })) := by
  unfold extend at h
  split at h
  · simp at h
  · rename_i t hf
    split at h
    · rename_i hst
      simp only [Except.ok.injEq, Prod.mk.injEq] at h
      obtain ⟨hs, hr⟩ := h
      have hsr : s' = s.setTimer r.timer := by rw [← hr]; exact hs.symm
      have hrt := congrArg TimerUpdateResult.timer hr
      simp only at hrt
      by_cases h0 : max ((if t.status = .running then computeRemaining t now
          else t.remainingMs) + extraMs) 0 = 0
      · rw [if_pos h0] at hrt
        exact ⟨t, hf, hst, hsr, Or.inl ⟨h0, hrt.symm⟩⟩
      · rw [if_neg h0] at hrt
        by_cases hrun : t.status = .running
        · rw [if_pos hrun] at hrt
          rw [if_pos hrun] at hrt
          exact ⟨t, hf, hst, hsr, Or.inr (Or.inl ⟨h0, hrun, hrt.symm⟩)⟩
        · have hp : t.status = .paused := by
            rcases hst with hx | hx
            · exact absurd hx hrun
            · exact hx
          rw [if_neg hrun] at hrt
          rw [if_neg hrun] at hrt
          exact ⟨t, hf, hst, hsr, Or.inr (Or.inr ⟨h0, hp, hrt.symm⟩)⟩
    · simp at h

end TimerStore

lemma endsAtInv_of_reachable {s : TimerStore} (h : ReachableStore s) :
    ∀ t ∈ s.timers, EndsAtInv t := by
  induction h with
  | init mc => intro t ht; exact absurd ht (List.not_mem_nil t)
  | start hr hd heq ih =>
    obtain ⟨hs, hstat, _, _, hends, _, _⟩ := TimerStore.start_ok heq
    subst hs
    intro t ht
    rcases TimerStore.mem_setTimer ht with he | hmem
    · subst he
      exact ⟨fun _ => Or.inl hstat, fun _ => by rw [hends]; rfl⟩
    · exact ih t hmem
  | pause hr heq ih =>
    obtain ⟨t0, _, _, hs, hrt⟩ := TimerStore.pause_ok heq
    subst hs
    intro t ht
    rcases TimerStore.mem_setTimer ht with he | hmem
    · subst he
      rw [hrt]
      exact ⟨fun hI => (nomatch hI), fun hx => by rcases hx with hx | hx <;> exact (nomatch hx)⟩
    · exact ih t hmem
  | resume hr heq ih =>
    obtain ⟨t0, _, _, hs, hrt⟩ := TimerStore.resume_ok heq
    subst hs
    intro t ht
    rcases TimerStore.mem_setTimer ht with he | hmem
    · subst he
      rw [hrt]
      exact ⟨fun _ => Or.inl rfl, fun _ => rfl⟩
    · exact ih t hmem
  | cancel hr heq ih =>
    obtain ⟨t0, _, hs, hrt⟩ := TimerStore.cancel_ok heq
    subst hs
    intro t ht
    rcases TimerStore.mem_setTimer ht with he | hmem
    · subst he
      rw [hrt]
      exact ⟨fun hI => (nomatch hI), fun hx => by rcases hx with hx | hx <;> exact (nomatch hx)⟩
    · exact ih t hmem
  | extend hr heq ih =>
    obtain ⟨t0, hf, hst, hs, hcase⟩ := TimerStore.extend_ok heq
    subst hs
    intro t ht
    rcases TimerStore.mem_setTimer ht with he | hmem
    · subst he
      have h0 := ih t0 (TimerStore.mem_of_findById hf)
      rcases hcase with ⟨_, hrt⟩ | ⟨_, hrun, hrt⟩ | ⟨_, hp, hrt⟩
      · rw [hrt]
        exact ⟨fun _ => Or.inr rfl, fun _ => rfl⟩
      · rw [hrt]
        exact ⟨fun _ => Or.inl hrun, fun _ => rfl⟩
      · rw [hrt]
        have hnone : ¬ t0.endsAt.isSome = true := fun hI => by
          rcases h0.mp hI with hx | hx <;> rw [hp] at hx <;> cases hx
      -- the update keeps `endsAt := t0.endsAt` and `status := t0.status`
        refine ⟨fun hI => absurd hI hnone, fun hx => ?_⟩
        have hx' : t0.status = .running ∨ t0.status = .completed := hx
        rcases hx' with hx' | hx' <;> rw [hp] at hx' <;> cases hx'
    · exact ih t hmem
  | tick hr ih =>
    rename_i now0
    intro t ht
    have ht' : t ∈ (TimerStore.completeAux now0 _).1 := ht
    rw [TimerStore.completeAux_fst] at ht'
    rcases List.mem_map.mp ht' with ⟨v, hv, he⟩
    by_cases hexp : TimerStore.isExpiredRunning v now0 = true
    · rw [if_pos hexp] at he
      subst he
      exact ⟨fun _ => Or.inr rfl, fun _ => rfl⟩
    · rw [if_neg hexp] at he
      subst he
      exact ih v hv

lemma computeRemaining_nonneg {t : Timer} (now : Int) (h : 0 ≤ t.remainingMs) :
    0 ≤ TimerStore.computeRemaining t now := by
  unfold TimerStore.computeRemaining
  cases t.endsAt with
  | none => exact h
  | some e => exact le_max_right _ _

lemma remInv_of_reachable {s : TimerStore} (h : ReachableStore s) :
    ∀ t ∈ s.timers, RemInv t := by
  induction h with
  | init mc => intro t ht; exact absurd ht (List.not_mem_nil t)
  | start hr hd heq ih =>
    obtain ⟨hs, hstat, hrem, _, _, _, _⟩ := TimerStore.start_ok heq
    subst hs
    intro t ht
    rcases TimerStore.mem_setTimer ht with he | hmem
    · subst he
      refine ⟨by rw [hrem]; exact hd, fun hx => ?_⟩
      rcases hx with hx | hx <;> rw [hstat] at hx <;> cases hx
    · exact ih t hmem
  | pause hr heq ih =>
    obtain ⟨t0, hf, _, hs, hrt⟩ := TimerStore.pause_ok heq
    subst hs
    intro t ht
    rcases TimerStore.mem_setTimer ht with he | hmem
    · subst he
      rw [hrt]
      have h0 := ih t0 (TimerStore.mem_of_findById hf)
      refine ⟨computeRemaining_nonneg _ h0.1, fun hx => ?_⟩
      rcases hx with hx | hx <;> exact (nomatch hx)
    · exact ih t hmem
  | resume hr heq ih =>
    obtain ⟨t0, hf, _, hs, hrt⟩ := TimerStore.resume_ok heq
    subst hs
    intro t ht
    rcases TimerStore.mem_setTimer ht with he | hmem
    · subst he
      rw [hrt]
      have h0 := ih t0 (TimerStore.mem_of_findById hf)
      refine ⟨h0.1, fun hx => ?_⟩
      rcases hx with hx | hx <;> exact (nomatch hx)
    · exact ih t hmem
  | cancel hr heq ih =>
    obtain ⟨t0, _, hs, hrt⟩ := TimerStore.cancel_ok heq
    subst hs
    intro t ht
    rcases TimerStore.mem_setTimer ht with he | hmem
    · subst he
      rw [hrt]
      exact ⟨le_refl 0, fun _ => rfl⟩
    · exact ih t hmem
  | extend hr heq ih =>
    obtain ⟨t0, hf, hst, hs, hcase⟩ := TimerStore.extend_ok heq
    subst hs
    intro t ht
    rcases TimerStore.mem_setTimer ht with he | hmem
    · subst he
      rcases hcase with ⟨_, hrt⟩ | ⟨_, hrun, hrt⟩ | ⟨_, hp, hrt⟩
      · rw [hrt]
        exact ⟨le_refl 0, fun _ => rfl⟩
      · rw [hrt]
        refine ⟨le_max_right _ _, fun hx => ?_⟩
        have hx' : t0.status = .completed ∨ t0.status = .cancelled := hx
        rcases hx' with hx' | hx' <;> rw [hrun] at hx' <;> cases hx'
      · rw [hrt]
        refine ⟨le_max_right _ _, fun hx => ?_⟩
        have hx' : t0.status = .completed ∨ t0.status = .cancelled := hx
        rcases hx' with hx' | hx' <;> rw [hp] at hx' <;> cases hx'
    · exact ih t hmem
  | tick hr ih =>
    rename_i now0
    intro t ht
    have ht' : t ∈ (TimerStore.completeAux now0 _).1 := ht
    rw [TimerStore.completeAux_fst] at ht'
    rcases List.mem_map.mp ht' with ⟨v, hv, he⟩
    by_cases hexp : TimerStore.isExpiredRunning v now0 = true
    · rw [if_pos hexp] at he
      subst he
      exact ⟨le_refl 0, fun _ => rfl⟩
    · rw [if_neg hexp] at he
      subst he
      exact ih v hv

lemma startA_eq : emptyStore5.start sampleInput 0 "a" = .ok (sStoreA, sResultA) := by
  decide

lemma reach_sStoreA : ReachableStore sStoreA :=
  ReachableStore.start (ReachableStore.init 5) (by decide) startA_eq

lemma pauseA_eq : sStoreA.pause "a" 1000 = .ok (sStoreAPaused, sPausedAResult) := by
  decide

lemma reach_sStoreAPaused : ReachableStore sStoreAPaused :=
  ReachableStore.pause reach_sStoreA pauseA_eq

lemma extendA_eq : sStoreA.extend "a" 60000 0 = .ok (sStoreAExt, sExtResultA) := by
  decide

lemma pauseTimerB_eq :
    TimerToolset.pauseTimer storeAB "b" 1000 1000 1000 1000 =
      .ok (sStoreABPaused, sPausedBResult) := by
  decide

lemma isExpiredRunning_iff {t : Timer} {now : Int} :
    TimerStore.isExpiredRunning t now = true ↔
      (t.status = .running ∧ ∃ e, t.endsAt = some e ∧ e ≤ now) := by
  unfold TimerStore.isExpiredRunning
  rcases hE : t.endsAt with _ | e
  · simp [hE]
  · simp [hE]

lemma decorate_finishTimer (t : Timer) (now n : Int) :
    TimerToolset.decorateTimer (TimerStore.finishTimer t now) n =
      TimerStore.finishTimer t now := rfl

/-!
Helper lemmas for `parseDurationSeconds`.
-/

lemma takeWhile_eq_self_of_all {α : Type} (p : α → Bool) :
    ∀ l : List α, l.all p = true → l.takeWhile p = l := by
  intro l
  induction l with
  | nil => intro _; rfl
  | cons a l ih =>
    intro h
    rw [List.all_cons, Bool.and_eq_true] at h
    rw [List.takeWhile_cons_of_pos h.1, ih h.2]

lemma dropWhile_eq_nil_of_all {α : Type} (p : α → Bool) :
    ∀ l : List α, l.all p = true → l.dropWhile p = [] := by
  intro l
  induction l with
  | nil => intro _; rfl
  | cons a l ih =>
    intro h
    rw [List.all_cons, Bool.and_eq_true] at h
    rw [List.dropWhile_cons_of_pos h.1, ih h.2]

lemma span_eq_of_all {α : Type} (p : α → Bool) (l : List α) (h : l.all p = true) :
    l.span p = (l, []) := by
  rw [List.span_eq_take_drop, takeWhile_eq_self_of_all p l h,
    dropWhile_eq_nil_of_all p l h]

/-- On an all-digit list the `mm:ss` regex cannot match: every shape it
accepts contains a literal `:`. -/
lemma matchMmSs_of_all_digits {l : List Char} (h : l.all Char.isDigit = true) :
    matchMmSs l = none := by
  unfold matchMmSs
  split
  · exact absurd ((List.all_eq_true.mp h) ':' (by simp)) (by decide)
  · exact absurd ((List.all_eq_true.mp h) ':' (by simp)) (by decide)
  · exact absurd ((List.all_eq_true.mp h) ':' (by simp)) (by decide)
  · exact absurd ((List.all_eq_true.mp h) ':' (by simp)) (by decide)
  · rfl

/-- On an all-digit list the unit scan finds no match at any position. -/
lemma scanUnitsF_of_all_digits :
    ∀ (fuel : Nat) (l : List Char), l.all Char.isDigit = true →
      (scanUnitsF fuel l).1 = [] := by
  intro fuel
  induction fuel with
  | zero =>
    intro l _
    cases l <;> rfl
  | succ fuel ih =>
    intro l h
    cases l with
    | nil => rfl
    | cons c cs =>
      have hnum : matchNumAt (c :: cs) =
          some (digitsVal (c :: cs), 0, 0, []) := by
        unfold matchNumAt
        rw [span_eq_of_all Char.isDigit (c :: cs) h]
        rfl
      have hphrase : matchUnitPhraseAt (c :: cs) = none := by
        unfold matchUnitPhraseAt
        rw [hnum]
        rfl
      have hall : cs.all Char.isDigit = true := by
        rw [List.all_cons, Bool.and_eq_true] at h
        exact h.2
      show (scanUnitsF (fuel + 1) (c :: cs)).1 = []
      unfold scanUnitsF
      rw [hphrase]
      exact ih cs hall

/-- JS `Number` of a nonempty all-digit string is its numeric value. -/
lemma jsNumber_of_all_digits {c : Char} {cs : List Char}
    (h : (c :: cs).all Char.isDigit = true) :
    jsNumber (c :: cs) = some (digitsVal (c :: cs) : ℚ) := by
  have hc : c.isDigit = true := by
    rw [List.all_cons, Bool.and_eq_true] at h
    exact h.1
  have hminus : ¬ c = '-' := by
    intro he
    rw [he] at hc
    exact absurd hc (by decide)
  have hplus : ¬ c = '+' := by
    intro he
    rw [he] at hc
    exact absurd hc (by decide)
  unfold jsNumber
  show (if c = '-' then (jsNumberCore cs).map (fun q => -q)
      else if c = '+' then jsNumberCore cs else jsNumberCore (c :: cs)) =
    some (digitsVal (c :: cs) : ℚ)
  rw [if_neg hminus, if_neg hplus]
  unfold jsNumberCore
  rw [span_eq_of_all Char.isDigit (c :: cs) h]
  rfl

lemma jsRoundQ_natCast (n : Nat) : jsRoundQ (n : ℚ) = n := by
  unfold jsRoundQ
  have hfl : (⌊(n : ℚ) + 1 / 2⌋) = (n : Int) := by
    rw [Int.floor_eq_iff]
    constructor
    · push_cast
      linarith
    · push_cast
      linarith
  rw [hfl]
  exact Int.toNat_natCast n

/-!
Claim theorems.
-/

/-- C1 (corrected).  The original claim "endsAt is present iff the status is
`running`" fails: `completeExpiringTimers` (and `extend` shrinking the
remaining time to zero) stores `endsAt = now` on the newly `completed`
timer.  Amended: for every store reachable through the public operations,
a timer's `endsAt` is present iff its status is `running` or `completed`
(it is cleared on pause and cancel; a completed timer retains the
completion timestamp). -/
theorem claim_C1 :
    ∀ s : TimerStore, ReachableStore s →
      ∀ t ∈ s.timers,
        (t.endsAt.isSome = true ↔ (t.status = .running ∨ t.status = .completed)) :=
  fun _ h => endsAtInv_of_reachable h

/-- Witness for C1 at a concrete reachable one-timer store. -/
theorem claim_C1_witness :
    sTimerA.endsAt.isSome = true ↔
      (sTimerA.status = .running ∨ sTimerA.status = .completed) :=
  claim_C1 sStoreA reach_sStoreA sTimerA (by decide)

/-- Counterexample to C1 as stated: starting a 1s timer at time 0 and
running the expiry scan at time 1000 yields a `completed` timer whose
`endsAt` is still present (`some 1000`), so `endsAt` presence is not
equivalent to `status = running`. -/
theorem claim_C1_counterexample :
    emptyStore5.start sampleInput 0 "a" = .ok (sStoreA, sResultA) ∧
    (sStoreA.completeExpiringTimers 1000).1.timers = [sFinishedA] ∧
    sFinishedA.endsAt.isSome = true ∧
    ¬ sFinishedA.status = .running :=
  ⟨startA_eq, by decide, by decide, by decide⟩

/-- C2 (corrected).  For a running timer with `endsAt` present the facade's
decoration reports `remainingMs = max(endsAt - now, 0)`, which is never
negative; but the reported value is NOT bounded by the original
`durationMs` — a positive `extend` pushes `endsAt` beyond
`startedAt + durationMs` (see the counterexample).  Amended: the reported
`remainingMs` equals `max(endsAt - now, 0)` at query time and is never
negative (it can exceed `durationMs` after an extension). -/
theorem claim_C2 :
    ∀ (t : Timer) (now e : Int), t.status = .running → t.endsAt = some e →
      (TimerToolset.decorateTimer t now).remainingMs = max (e - now) 0 ∧
      0 ≤ (TimerToolset.decorateTimer t now).remainingMs ∧
      ∀ s : TimerStore, t ∈ s.getAll →
        TimerToolset.decorateTimer t now ∈ TimerToolset.getSnapshot s now := by
  intro t now e hst hends
  have hdec : TimerToolset.decorateTimer t now = { t with remainingMs := max (e - now) 0 } := by
    unfold TimerToolset.decorateTimer
    rw [hst, hends]
  refine ⟨by rw [hdec], by rw [hdec]; exact le_max_right _ _, ?_⟩
  intro s hs
  exact List.mem_map.mpr ⟨t, hs, rfl⟩

/-- Witness for C2 at the concrete started timer, queried at time 0. -/
theorem claim_C2_witness :
    (TimerToolset.decorateTimer sTimerA 0).remainingMs = max (1000 - 0) 0 ∧
    0 ≤ (TimerToolset.decorateTimer sTimerA 0).remainingMs :=
  ⟨(claim_C2 sTimerA 0 1000 rfl rfl).1, (claim_C2 sTimerA 0 1000 rfl rfl).2.1⟩

/-- Counterexample to C2's bound: the 1000ms timer `sTimerA`, extended by
60000ms at time 0, is reported with `remainingMs = 61000`, which exceeds
its original `durationMs = 1000`. -/
theorem claim_C2_counterexample :
    emptyStore5.start sampleInput 0 "a" = .ok (sStoreA, sResultA) ∧
    sStoreA.extend "a" 60000 0 = .ok (sStoreAExt, sExtResultA) ∧
    sExtTimerA.status = .running ∧
    sExtTimerA.durationMs = 1000 ∧
    (TimerToolset.decorateTimer sExtTimerA 0).remainingMs = 61000 ∧
    ¬ (TimerToolset.decorateTimer sExtTimerA 0).remainingMs ≤ sExtTimerA.durationMs :=
  ⟨startA_eq, extendA_eq, by decide, by decide, by decide, by decide⟩

/-- C4 (corrected).  `remainingMs ≥ 0` holds for every reachable timer, and
`completed`/`cancelled` timers have `remainingMs = 0`; but the converse
fails (see the counterexample: pausing a timer exactly at its expiry
leaves a `paused` timer with `remainingMs = 0`).  Amended: for every timer
reachable through the public operations (with the nonnegative start
durations the facade guarantees), `remainingMs ≥ 0`, and
`status ∈ {completed, cancelled}` implies `remainingMs = 0`. -/
theorem claim_C4 :
    ∀ s : TimerStore, ReachableStore s →
      ∀ t ∈ s.timers,
        0 ≤ t.remainingMs ∧
          ((t.status = .completed ∨ t.status = .cancelled) → t.remainingMs = 0) :=
  fun _ h => remInv_of_reachable h

/-- Witness for C4 at a concrete reachable one-timer store. -/
theorem claim_C4_witness :
    0 ≤ sTimerA.remainingMs ∧
      ((sTimerA.status = .completed ∨ sTimerA.status = .cancelled) →
        sTimerA.remainingMs = 0) :=
  claim_C4 sStoreA reach_sStoreA sTimerA (by decide)

/-- Counterexample to C4 as stated: pausing the running 1s timer exactly at
its expiry instant (time 1000) produces a reachable `paused` timer with
`remainingMs = 0`, refuting `remainingMs = 0 → status ∈ {completed,
cancelled}`. -/
theorem claim_C4_counterexample :
    emptyStore5.start sampleInput 0 "a" = .ok (sStoreA, sResultA) ∧
    sStoreA.pause "a" 1000 = .ok (sStoreAPaused, sPausedAResult) ∧
    ReachableStore sStoreAPaused ∧
    sPausedA ∈ sStoreAPaused.timers ∧
    sPausedA.remainingMs = 0 ∧
    ¬ (sPausedA.status = .completed ∨ sPausedA.status = .cancelled) :=
  ⟨startA_eq, pauseA_eq, reach_sStoreAPaused, by decide, by decide, by decide⟩

/-- C10 (confirmed).  `completeExpiringTimers` is idempotent at a fixed
timestamp: the second scan with the same `now` completes nothing and
leaves the store unchanged. -/
theorem claim_C10 :
    ∀ (s : TimerStore) (now : Int),
      ((s.completeExpiringTimers now).1).completeExpiringTimers now =
        ((s.completeExpiringTimers now).1, []) := by
  intro s now
  have hall : ∀ t ∈ ((s.completeExpiringTimers now).1).timers,
      TimerStore.isExpiredRunning t now = false := by
    intro t ht
    exact TimerStore.not_expired_of_mem_completeAux t ht
  have h2 := TimerStore.completeAux_of_none now
    ((s.completeExpiringTimers now).1).timers hall
  refine Prod.ext ?_ ?_
  · show ({ (s.completeExpiringTimers now).1 with
        timers :=
          (TimerStore.completeAux now ((s.completeExpiringTimers now).1).timers).1 }) = _
    rw [h2]
  · show (TimerStore.completeAux now ((s.completeExpiringTimers now).1).timers).2 =
      ([] : List Timer)
    rw [h2]

/-- C7 (corrected).  The spec's "delivered exactly once" fails: after the
first waiter takes the stored error and clears it, any further waiter
re-awaits the same still-rejected `pendingPersist` promise; the back-fill
in `waitForPersistence` re-stores the error, so it is thrown again.
Amended: the in-memory result of a mutation does not depend on the save's
outcome; after a failed save the next `waitForPersistence` caller receives
the error and the stored error is cleared, but each further waiter before
the next mutation receives the same error again; only after a mutation
whose save settles successfully do waiters receive no error. -/
theorem claim_C7 :
    ∀ (e : String) (p : PersistState),
      (∀ (s : TimerStore) (id : String) (now : Int) (o o' : Option String),
        (pauseWithPersist s p id now o).map (fun x => (x.1.1, x.2)) =
          (pauseWithPersist s p id now o').map (fun x => (x.1.1, x.2))) ∧
      ((p.emitChangeSettle (some e)).waitForPersistence.2 = some e) ∧
      ((p.emitChangeSettle (some e)).waitForPersistence.1.lastPersistError = none) ∧
      ((p.emitChangeSettle (some e)).waitForPersistence.1.waitForPersistence.2 = some e) ∧
      (∀ q : PersistState, (q.emitChangeSettle none).waitForPersistence.2 = none) := by
  intro e p
  refine ⟨?_, rfl, rfl, rfl, fun q => rfl⟩
  intro s id now o o'
  unfold pauseWithPersist
  cases s.pause id now <;> rfl

/-- Witness for C7 with a concrete failure message. -/
theorem claim_C7_witness :
    ((PersistState.init.emitChangeSettle (some "disk full")).waitForPersistence.2 =
      some "disk full") ∧
    ((PersistState.init.emitChangeSettle
        (some "disk full")).waitForPersistence.1.waitForPersistence.2 =
      some "disk full") :=
  ⟨(claim_C7 "disk full" PersistState.init).2.1,
   (claim_C7 "disk full" PersistState.init).2.2.2.1⟩

/-- Counterexample to C7's exactly-once delivery: after one failed save, the
first wait throws the error — and so does the second wait, although no new
failure occurred. -/
theorem claim_C7_counterexample :
    ((PersistState.init.emitChangeSettle (some "disk full")).waitForPersistence.2 =
      some "disk full") ∧
    ¬ ((PersistState.init.emitChangeSettle
        (some "disk full")).waitForPersistence.1.waitForPersistence.2 = none) :=
  ⟨rfl, by decide⟩

/-- C5 (confirmed).  For a running timer (live remaining
`max(endsAt - now, 0)`) or a paused timer (cached `remainingMs`), `extend`
with a delta making the remaining time non-positive completes the timer in
the same call: status `completed`, `remainingMs = 0`, `endsAt = now`, with
the store updated accordingly — the result record is completed outright,
no intermediate negative `remainingMs` exists. -/
theorem claim_C5 :
    ∀ (s : TimerStore) (id : String) (t : Timer) (deltaMs now : Int),
      s.findById id = some t →
      ((t.status = .running ∧ ∃ e, t.endsAt = some e ∧ max (e - now) 0 + deltaMs ≤ 0) ∨
       (t.status = .paused ∧ t.remainingMs + deltaMs ≤ 0)) →
      s.extend id deltaMs now =
        .ok (s.setTimer { t with status := .completed, remainingMs := 0, endsAt := some now },
          { timer := { t with status := .completed, remainingMs := 0, endsAt := some now },
            message := t.label ++ " finished after the adjustment." }) ∧
      (s.setTimer
          { t with status := .completed, remainingMs := 0, endsAt := some now }).findById id =
        some { t with status := .completed, remainingMs := 0, endsAt := some now } := by
  intro s id t deltaMs now hf hcase
  have hact : t.status = .running ∨ t.status = .paused := by
    rcases hcase with ⟨h, _⟩ | ⟨h, _⟩
    · exact Or.inl h
    · exact Or.inr h
  have h0 : max ((if t.status = .running then TimerStore.computeRemaining t now
      else t.remainingMs) + deltaMs) 0 = 0 := by
    rcases hcase with ⟨hst, e, hends, hle⟩ | ⟨hst, hle⟩
    · rw [if_pos hst]
      unfold TimerStore.computeRemaining
      rw [hends]
      exact max_eq_right hle
    · have hnr : ¬ t.status = .running := by rw [hst]; intro hx; cases hx
      rw [if_neg hnr]
      exact max_eq_right hle
  constructor
  · unfold TimerStore.extend
    simp only [hf]
    rw [if_pos hact]
    rw [if_pos h0]
    rw [if_pos h0]
  · have hid : t.id = id := TimerStore.id_of_findById hf
    rw [← hid]
    exact TimerStore.findById_setTimer s _

/-- Witness for C5: shrinking the concrete running 1s timer by its full
remaining time at time 0 completes it immediately. -/
theorem claim_C5_witness :
    sStoreA.extend "a" (-1000) 0 =
      .ok (sStoreA.setTimer
          { sTimerA with status := .completed, remainingMs := 0, endsAt := some 0 },
        { timer := { sTimerA with status := .completed, remainingMs := 0, endsAt := some 0 },
          message := sTimerA.label ++ " finished after the adjustment." }) ∧
    (sStoreA.setTimer
        { sTimerA with status := .completed, remainingMs := 0, endsAt := some 0 }).findById "a" =
      some { sTimerA with status := .completed, remainingMs := 0, endsAt := some 0 } :=
  claim_C5 sStoreA "a" sTimerA (-1000) 0 (by decide)
    (Or.inl ⟨rfl, 1000, rfl, by decide⟩)

/-- C6 (confirmed).  Pausing a running timer at `t1` captures
`r = max(endsAt - t1, 0)`; resuming at any later `t2` restores `running`
with `endsAt = t2 + r`, the cached remaining still `r`, and the original
`startedAt` unchanged — the remaining duration is preserved exactly across
the pause window.  (Stated via the observable projections of the two
operation results.) -/
theorem claim_C6 :
    ∀ (s : TimerStore) (id : String) (t : Timer) (e s0 t1 t2 : Int),
      s.findById id = some t → t.status = .running → t.endsAt = some e →
      t.startedAt = some s0 → t1 ≤ t2 →
      (s.pause id t1).map
          (fun x => (x.1.resume id t2).map
            (fun y => (y.2.timer.status, y.2.timer.remainingMs,
              y.2.timer.endsAt, y.2.timer.startedAt))) =
        .ok (.ok (.running, max (e - t1) 0, some (t2 + max (e - t1) 0), some s0)) := by
  intro s id t e s0 t1 t2 hf hst hends hstarted hle
  have hpeq : s.pause id t1 =
      .ok (s.setTimer
          { t with status := .paused, remainingMs := max (e - t1) 0, endsAt := none },
        { timer :=
            { t with status := .paused, remainingMs := max (e - t1) 0, endsAt := none },
          message := t.label ++ " paused with " ++
            toString (jsCeilDiv (max (e - t1) 0) 60000) ++ " minutes left." }) := by
    unfold TimerStore.pause
    simp only [hf]
    rw [if_pos hst]
    unfold TimerStore.computeRemaining
    rw [hends]
  have hid : t.id = id := TimerStore.id_of_findById hf
  have hfp : (s.setTimer
      { t with status := .paused, remainingMs := max (e - t1) 0, endsAt := none }).findById
        id =
      some { t with status := .paused, remainingMs := max (e - t1) 0, endsAt := none } := by
    rw [← hid]
    exact TimerStore.findById_setTimer s _
  rw [hpeq]
  show Except.ok _ = _
  have hreq :
      (s.setTimer
        { t with status := .paused, remainingMs := max (e - t1) 0, endsAt := none }).resume
          id t2 =
      .ok ((s.setTimer
            { t with status := .paused, remainingMs := max (e - t1) 0, endsAt := none }).setTimer
          { t with
              status := .running
              remainingMs := max (e - t1) 0
              startedAt := some s0
              endsAt := some (t2 + max (e - t1) 0) },
        { timer :=
            { t with
                status := .running
                remainingMs := max (e - t1) 0
                startedAt := some s0
                endsAt := some (t2 + max (e - t1) 0) }
          message := t.label ++ " resumed. " ++
            toString (jsCeilDiv (max (e - t1) 0) 60000) ++ " minutes remaining." }) := by
    unfold TimerStore.resume
    simp only [hfp]
    simp only [if_true]
    rw [hstarted]
    rfl
  simp only [Except.map, hreq]

/-- Witness for C6: pause the concrete 1s timer at 200, resume at 500. -/
theorem claim_C6_witness :
    (sStoreA.pause "a" 200).map
        (fun x => (x.1.resume "a" 500).map
          (fun y => (y.2.timer.status, y.2.timer.remainingMs,
            y.2.timer.endsAt, y.2.timer.startedAt))) =
      .ok (.ok (.running, max ((1000 : Int) - 200) 0,
        some (500 + max ((1000 : Int) - 200) 0), some 0)) :=
  claim_C6 sStoreA "a" sTimerA 1000 0 200 500 (by decide) rfl rfl rfl (by decide)

/-- C8 (confirmed).  `start` fails (with exactly the capacity message) iff
the count of active timers — those in `scheduled`, `running` or `paused`
state — has reached `maxConcurrent`; below the cap it creates the running
timer; the default cap is 5. -/
theorem claim_C8 :
    ∀ (s : TimerStore) (input : TimerStore.StartInput) (now : Int) (id : String),
      (s.start input now id = .error (TimerStore.capacityMessage s.maxConcurrent) ↔
        s.maxConcurrent ≤ s.getActive.length) ∧
      (s.getActive.length < s.maxConcurrent →
        s.start input now id =
          .ok (s.setTimer (startRecord s input now id),
            { timer := startRecord s input now id,
              message := "Started " ++ (startRecord s input now id).label ++ " for " ++
                toString (jsRoundDiv input.durationMs 60000) ++ " minutes." }) ∧
        (startRecord s input now id).status = .running) ∧
      s.getActive.length = (s.timers.filter TimerStore.isActive).length ∧
      DEFAULT_MAX_CONCURRENT = 5 := by
  intro s input now id
  have hlen : s.getActive.length = (s.timers.filter TimerStore.isActive).length := by
    unfold TimerStore.getActive TimerStore.getAll
    exact ((List.perm_insertionSort _ _).filter _).length_eq
  by_cases hc : s.maxConcurrent ≤ s.getActive.length
  · refine ⟨⟨fun _ => hc, fun _ => ?_⟩, fun hlt => absurd hlt (not_lt.mpr hc), hlen, rfl⟩
    unfold TimerStore.start
    rw [if_pos hc]
  · refine ⟨⟨fun herr => ?_, fun hge => absurd hge hc⟩, fun _ => ⟨?_, rfl⟩, hlen, rfl⟩
    · unfold TimerStore.start at herr
      rw [if_neg hc] at herr
      exact absurd herr (by simp)
    · unfold TimerStore.start
      rw [if_neg hc]
      rfl

/-- Witness for C8: with five active (paused) timers a 6th `start` fails
with the capacity message; with four it succeeds and the created timer is
running. -/
theorem claim_C8_witness :
    store5.start sampleInput 0 "x" = .error (TimerStore.capacityMessage 5) ∧
    store4.start sampleInput 0 "x" =
      .ok (store4.setTimer (startRecord store4 sampleInput 0 "x"),
        { timer := startRecord store4 sampleInput 0 "x",
          message := "Started " ++ (startRecord store4 sampleInput 0 "x").label ++ " for " ++
            toString (jsRoundDiv sampleInput.durationMs 60000) ++ " minutes." }) ∧
    (startRecord store4 sampleInput 0 "x").status = .running :=
  ⟨(claim_C8 store5 sampleInput 0 "x").1.mpr (by decide),
   ((claim_C8 store4 sampleInput 0 "x").2.1 (by decide)).1,
   ((claim_C8 store4 sampleInput 0 "x").2.1 (by decide)).2⟩

/-- C3 (confirmed).  `completeExpiringTimers now` promotes exactly the
running timers with `endsAt ≤ now` to `completed` with `remainingMs = 0`
and `endsAt = now`, leaves every other timer unchanged (the new timer list
is the pointwise image of the old one), returns all of them, and the
toolset (here `pauseTimer`, whose primary target is an arbitrary id)
reports every one of them in the call's `completed` list. -/
theorem claim_C3 :
    ∀ (s : TimerStore) (now : Int),
      ((s.completeExpiringTimers now).1.timers =
        s.timers.map (fun t => if TimerStore.isExpiredRunning t now = true
          then TimerStore.finishTimer t now else t)) ∧
      (∀ t ∈ s.timers, ∀ e : Int, t.status = .running → t.endsAt = some e → e ≤ now →
        TimerStore.finishTimer t now ∈ (s.completeExpiringTimers now).1.timers ∧
        TimerStore.finishTimer t now ∈ (s.completeExpiringTimers now).2 ∧
        (TimerStore.finishTimer t now).status = .completed ∧
        (TimerStore.finishTimer t now).remainingMs = 0 ∧
        (TimerStore.finishTimer t now).endsAt = some now) ∧
      (∀ t ∈ s.timers, ¬ (t.status = .running ∧ ∃ e, t.endsAt = some e ∧ e ≤ now) →
        t ∈ (s.completeExpiringTimers now).1.timers) ∧
      (∀ (id : String) (tickDecNow opNow decNow : Int) (s2 : TimerStore)
          (r : TimerUpdateResult),
        TimerToolset.pauseTimer s id now tickDecNow opNow decNow = .ok (s2, r) →
        r.completed = some ((s.completeExpiringTimers now).2.map
          (fun u => TimerToolset.decorateTimer u tickDecNow)) ∧
        ∀ t ∈ s.timers, ∀ e : Int, t.status = .running → t.endsAt = some e → e ≤ now →
          TimerStore.finishTimer t now ∈ r.completed.getD []) := by
  intro s now
  have hfst : (s.completeExpiringTimers now).1.timers =
      s.timers.map (fun t => if TimerStore.isExpiredRunning t now = true
        then TimerStore.finishTimer t now else t) :=
    TimerStore.completeAux_fst now s.timers
  have hsnd : (s.completeExpiringTimers now).2 =
      (s.timers.filter (fun t => TimerStore.isExpiredRunning t now)).map
        (fun t => TimerStore.finishTimer t now) :=
    TimerStore.completeAux_snd now s.timers
  have hmem2 : ∀ t ∈ s.timers, ∀ e : Int, t.status = .running → t.endsAt = some e →
      e ≤ now → TimerStore.finishTimer t now ∈ (s.completeExpiringTimers now).2 := by
    intro t ht e hst hE hle
    have hexp : TimerStore.isExpiredRunning t now = true :=
      isExpiredRunning_iff.mpr ⟨hst, e, hE, hle⟩
    rw [hsnd]
    exact List.mem_map.mpr ⟨t, List.mem_filter.mpr ⟨ht, hexp⟩, rfl⟩
  refine ⟨hfst, ?_, ?_, ?_⟩
  · intro t ht e hst hE hle
    have hexp : TimerStore.isExpiredRunning t now = true :=
      isExpiredRunning_iff.mpr ⟨hst, e, hE, hle⟩
    refine ⟨?_, hmem2 t ht e hst hE hle, rfl, rfl, rfl⟩
    rw [hfst]
    exact List.mem_map.mpr ⟨t, ht, by rw [if_pos hexp]⟩
  · intro t ht hnot
    have hexp : ¬ TimerStore.isExpiredRunning t now = true :=
      fun h => hnot (isExpiredRunning_iff.mp h)
    rw [hfst]
    exact List.mem_map.mpr ⟨t, ht, by rw [if_neg hexp]⟩
  · intro id tickDecNow opNow decNow s2 r hok
    have hcompleted : r.completed =
        some ((s.completeExpiringTimers now).2.map
          (fun u => TimerToolset.decorateTimer u tickDecNow)) := by
      unfold TimerToolset.pauseTimer at hok
      split at hok
      · exact absurd hok (by simp)
      · rename_i s2' r' heq
        simp only [Except.ok.injEq, Prod.mk.injEq] at hok
        obtain ⟨h1, h2⟩ := hok
        subst h2
        rfl
    refine ⟨hcompleted, ?_⟩
    intro t ht e hst hE hle
    rw [hcompleted]
    show TimerStore.finishTimer t now ∈
      (s.completeExpiringTimers now).2.map (fun u => TimerToolset.decorateTimer u tickDecNow)
    exact List.mem_map.mpr
      ⟨_, hmem2 t ht e hst hE hle, decorate_finishTimer t now tickDecNow⟩

/-- Witness for C3: in the two-timer store, the 1s timer expires at 1000;
pausing the *other* timer still reports it completed. -/
theorem claim_C3_witness :
    TimerStore.finishTimer sTimerA 1000 ∈ (storeAB.completeExpiringTimers 1000).2 ∧
    sPausedBResult.completed =
      some ((storeAB.completeExpiringTimers 1000).2.map
        (fun u => TimerToolset.decorateTimer u 1000)) ∧
    TimerStore.finishTimer sTimerA 1000 ∈ sPausedBResult.completed.getD [] :=
  ⟨((claim_C3 storeAB 1000).2.1 sTimerA (by decide) 1000 rfl rfl (by decide)).2.1,
   ((claim_C3 storeAB 1000).2.2.2 "b" 1000 1000 1000 sStoreABPaused sPausedBResult
      pauseTimerB_eq).1,
   ((claim_C3 storeAB 1000).2.2.2 "b" 1000 1000 1000 sStoreABPaused sPausedBResult
      pauseTimerB_eq).2 sTimerA (by decide) 1000 rfl rfl (by decide)⟩

/-- C9 (confirmed).  `parseDurationSeconds` returns `mm*60+ss` for `mm:ss`
inputs with positive total; for inputs with unit-phrase matches and no
leftover digits it returns the additive sum of the matched phrases
(`totalFromUnits`); a bare positive all-digit input yields its value in
seconds; it fails on empty input, non-positive totals, and leftover
numeric content next to unit matches.  The input classes are expressed by
the embedded matchers (`matchMmSs`, `scanUnits`) over the trimmed,
lower-cased input, exactly as the source applies its regexes. -/
theorem claim_C9 :
    ∀ input : String,
      (normalizeInput input = [] →
        parseDurationSeconds input = .error "Duration must not be empty.") ∧
      (∀ m sec : Nat, matchMmSs (normalizeInput input) = some (m, sec) →
        (0 < m * 60 + sec → parseDurationSeconds input = .ok (m * 60 + sec)) ∧
        (m * 60 + sec = 0 →
          parseDurationSeconds input = .error "Duration must be greater than zero seconds.")) ∧
      (matchMmSs (normalizeInput input) = none →
        ∀ ms : List UnitMatch, ms ≠ [] →
          ((scanUnits (normalizeInput input) = (ms, false) →
            (0 < totalFromUnits ms →
              parseDurationSeconds input = .ok (totalFromUnits ms)) ∧
            (totalFromUnits ms = 0 →
              parseDurationSeconds input =
                .error "Duration must be greater than zero seconds.")) ∧
          (scanUnits (normalizeInput input) = (ms, true) →
            parseDurationSeconds input = .error (couldNotParse input)))) ∧
      ((normalizeInput input).all Char.isDigit = true →
        (normalizeInput input) ≠ [] →
        0 < digitsVal (normalizeInput input) →
        parseDurationSeconds input = .ok (digitsVal (normalizeInput input))) := by
  intro input
  refine ⟨?_, ?_, ?_, ?_⟩
  · intro h
    unfold parseDurationSeconds
    rw [if_pos h]
  · intro m sec hm
    have hne : ¬ normalizeInput input = [] := by
      intro he
      rw [he] at hm
      exact (nomatch hm)
    constructor
    · intro hpos
      unfold parseDurationSeconds
      rw [if_neg hne]
      simp only [hm]
      rw [if_neg (by omega)]
    · intro h0
      unfold parseDurationSeconds
      rw [if_neg hne]
      simp only [hm]
      rw [if_pos h0]
  · intro hnone ms hmsne
    constructor
    · intro hscan
      have hne : ¬ normalizeInput input = [] := by
        intro he
        rw [he] at hscan
        have : ([] : List UnitMatch) = ms := congrArg Prod.fst hscan
        exact hmsne this.symm
      constructor
      · intro hpos
        unfold parseDurationSeconds
        rw [if_neg hne]
        simp only [hnone, hscan]
        rcases ms with _ | ⟨u, us⟩
        · exact absurd rfl hmsne
        · rw [if_neg (by simp)]
          rw [if_neg (by simp)]
          rw [if_neg (by omega)]
      · intro h0
        unfold parseDurationSeconds
        rw [if_neg hne]
        simp only [hnone, hscan]
        rcases ms with _ | ⟨u, us⟩
        · exact absurd rfl hmsne
        · rw [if_neg (by simp)]
          rw [if_neg (by simp)]
          rw [if_pos h0]
    · intro hscan
      have hne : ¬ normalizeInput input = [] := by
        intro he
        rw [he] at hscan
        exact (nomatch congrArg Prod.snd hscan)
      unfold parseDurationSeconds
      rw [if_neg hne]
      simp only [hnone, hscan]
      rcases ms with _ | ⟨u, us⟩
      · exact absurd rfl hmsne
      · rw [if_neg (by simp)]
        rw [if_pos (by simp)]
  · intro hall hlne hpos
    have hnone := matchMmSs_of_all_digits hall
    have hscan1 : (scanUnits (normalizeInput input)).1 = [] :=
      scanUnitsF_of_all_digits _ _ hall
    rcases hlist : (normalizeInput input) with _ | ⟨c, cs⟩
    · exact absurd hlist hlne
    · have hne : ¬ normalizeInput input = [] := by
        intro he
        rw [he] at hlist
        exact (nomatch hlist)
      have hjs := jsNumber_of_all_digits (hlist ▸ hall)
      have hq : 0 < (digitsVal (c :: cs) : ℚ) := by
        have := hlist ▸ hpos
        exact_mod_cast this
      unfold parseDurationSeconds
      rw [if_neg hne]
      rw [hlist] at hnone hscan1 ⊢
      simp only [hnone]
      rw [if_pos (by rw [hscan1]; rfl)]
      simp only [hjs]
      rw [if_pos hq]
      rw [jsRoundQ_natCast]

/-- Witness for C9 across the input classes: an `mm:ss` input, a unit-phrase
input, a bare integer, the empty input, leftover numeric content, and a
zero total. -/
theorem claim_C9_witness :
    parseDurationSeconds "1:30" = .ok 90 ∧
    parseDurationSeconds "1h 2m 3s" = .ok 3723 ∧
    parseDurationSeconds "90" = .ok 90 ∧
    parseDurationSeconds "" = .error "Duration must not be empty." ∧
    parseDurationSeconds "5m 3" = .error (couldNotParse "5m 3") ∧
    parseDurationSeconds "0:00" = .error "Duration must be greater than zero seconds." := by
  refine ⟨?_, ?_, ?_, ?_, ?_, ?_⟩
  · exact ((claim_C9 "1:30").2.1 1 30 (by decide)).1 (by decide)
  · have h := (((claim_C9 "1h 2m 3s").2.2.1 (by decide)
      [⟨1, 0, 0, "h"⟩, ⟨2, 0, 0, "m"⟩, ⟨3, 0, 0, "s"⟩] (by decide)).1 (by decide)).1
      (by decide)
    rw [h]
    decide
  · have h := (claim_C9 "90").2.2.2 (by decide) (by decide) (by decide)
    rw [h]
    decide
  · exact (claim_C9 "").1 (by decide)
  · exact ((claim_C9 "5m 3").2.2.1 (by decide) [⟨5, 0, 0, "m"⟩] (by decide)).2 (by decide)
  · exact ((claim_C9 "0:00").2.1 0 0 (by decide)).2 (by decide)
